import Mathlib

/-!
Verification of the ComfyUI-Gallery node-graph metadata extraction engine.

Shallow embedding of the TypeScript sources
`web/src/metadata-parser/promptMetadataParser.ts`,
`web/src/metadata-parser/heuristicMetadataParser.ts`,
`web/src/metadata-parser/workflowMetadataParser.ts` and
`web/src/MetadataCache.ts`.

Modelling conventions:
* JS values appearing in node inputs are modelled by the inductive `JVal`
  (null/undefined collapse to `jnull`; numbers are modelled as integers,
  which covers every numeric literal the claims touch).
* JS strings are Lean `String`s, but every string operation the code uses
  (`trim`, `length`, `split(',').length`, `startsWith`, `includes`) is
  defined here directly over the character list `s.data`, matching the JS
  semantics and keeping everything kernel-computable.
* JS objects holding a node's `inputs` are association lists; JS object
  iteration (`Object.keys`) is list order.
* The recursion of `resolveTextFromRef` counts a `depth` argument up and
  stops at `depth > 50`; every recursive call site uses `depth + 1` and
  nothing else depends on `depth`.  The computable embedding therefore
  recurses structurally on the remaining budget `fuel = 51 - depth`
  (`depth > 50` in the source is exactly `fuel = 0`).  A literal
  depth-counting version is also defined and proved equal (claim C3).
* Mutable `Set`/array state (`visited`, `collectedTexts`) is threaded
  explicitly; the source copies `visited` (`new Set(visited)`) at every
  recursive call, so pure value passing is an exact model.
-/

/-- JSON-ish JS value, as stored in an execution-record node's inputs. -/
inductive JVal where
  | jnull  : JVal
  | jstr   : String → JVal
  | jnum   : Int → JVal
  | jbool  : Bool → JVal
  | jarr   : List JVal → JVal
  | jobj   : List (String × JVal) → JVal

open JVal

/-- JS truthiness (`undefined`/`null` are `jnull`). -/
def truthy : JVal → Bool
  | jnull => false
  | jstr s => s ≠ ""
  | jnum n => n ≠ 0
  | jbool b => b
  | jarr _ => true
  | jobj _ => true

/-- First-match association-list lookup (JS property access `o[k]`). -/
def alookup {β : Type} (l : List (String × β)) (k : String) : Option β :=
  match l with
  | [] => none
  | (k', v) :: t => if k' = k then some v else alookup t k

/-- JS whitespace for `String.prototype.trim`. -/
def isJsWs (c : Char) : Bool :=
  c = ' ' ∨ c = '\t' ∨ c = '\n' ∨ c = '\r' ∨ c = '\x0b' ∨ c = '\x0c'

/-- Trim of a character list: drop whitespace at both ends. -/
def trimChars (l : List Char) : List Char :=
  ((l.dropWhile isJsWs).reverse.dropWhile isJsWs).reverse

/-- JS `s.trim()`. -/
def jsTrim (s : String) : String := String.mk (trimChars s.data)

/-- JS `s.length` (code-unit count, modelled as character count). -/
def jsLen (s : String) : Nat := s.data.length

/-- JS `a.startsWith(b)`. -/
def strStartsWith (s pat : String) : Bool := pat.data.isPrefixOf s.data

/-- Whether `pat` occurs as a contiguous infix of `l`. -/
def listInfix (pat : List Char) : List Char → Bool
  | [] => pat.isEmpty
  | c :: t => pat.isPrefixOf (c :: t) || listInfix pat t

/-- JS `s.includes(pat)`. -/
def strIncludes (s pat : String) : Bool := listInfix pat.data s.data

/-- JS `parts.join(sep)`. -/
def jsJoin (sep : String) : List String → String
  | [] => ""
  | [x] => x
  | x :: y :: t => x ++ sep ++ jsJoin sep (y :: t)

mutual

/-- JS `String(v)` for the value shapes that reach display conversion. -/
def jsToString : JVal → String
  | jnull => "null"
  | jstr s => s
  | jnum n => toString n
  | jbool b => if b then "true" else "false"
  | jarr xs => jsJoin "," (jsToStringList xs)
  | jobj _ => "[object Object]"

/-- `String` applied elementwise (JS array `toString`). -/
def jsToStringList : List JVal → List String
  | [] => []
  | x :: t => jsToString x :: jsToStringList t

end

/-- `isPlainPromptString` from `heuristicMetadataParser.ts` (lines 13-21):
rejects non-strings, whole-string JSON objects/arrays after trim, and
strings whose *trimmed* form is longer than 2000 characters with more than
100 comma-separated segments. -/
def isPlainPromptString (v : JVal) : Bool :=
  match v with
  | jstr s =>
    let t := trimChars s.data
    if (t.head? = some '\x7b' && t.getLast? = some '\x7d') ||
       (t.head? = some '[' && t.getLast? = some ']') then false
    else if t.length > 2000 && (t.count ',' + 1) > 100 then false
    else true
  | _ => false

example : isPlainPromptString (jstr "cat, masterpiece") = true := by decide
example : isPlainPromptString (jstr "  [1,2,3]  ") = false := by decide
example : isPlainPromptString (jnum 3) = false := by decide
example : isPlainPromptString (jstr "\x7ba\x7d") = false := by decide

/-! ### Execution-record graph (`promptMetadataParser.ts`) -/

/-- A node of the execution-record graph.  `class_type` and `ntype` model
`node.class_type` and `node.type` (absent fields are `""`, matching the
source's `|| ''` defaults); `title` models `node._meta?.title || ''`. -/
structure JNode where
  class_type : String := ""
  ntype : String := ""
  title : String := ""
  inputs : List (String × JVal) := []

/-- Execution-record graph: node-id to node, in JS object key order. -/
def Graph := List (String × JNode)

/-- `prompt[nodeId]`. -/
def glookup (g : Graph) (k : String) : Option JNode := alookup g k

/-- `SHOW_TEXT_TYPES` (promptMetadataParser.ts lines 43-45). -/
def SHOW_TEXT_TYPES : List String :=
  ["ShowText|pysssss", "ShowText", "easy showAnything", "Display Any", "Text Display"]

/-- `TEXT_CONCAT_TYPES` (lines 15-25). -/
def TEXT_CONCAT_TYPES : List String :=
  ["CR Text Concatenate", "CR Text Combine", "CR Prompt Text Combiner",
   "Text Concatenate", "StringConcat", "String Concatenate", "Text Concat",
   "JoinStrings", "Join Strings", "Concat Strings", "String Join",
   "easy promptConcat", "easy textConcat",
   "Text Concatenate (mtb)", "String Concatenate (mtb)"]

/-- `TEXT_NODE_TYPES` (lines 36-40). -/
def TEXT_NODE_TYPES : List String :=
  ["CLIPTextEncode", "CR Prompt Text", "ImpactWildcardProcessor", "Textbox",
   "easy showAnything", "StringFunction", "Text Multiline", "String", "Text",
   "CR Text", "ShowText", "ShowText|pysssss", "Note", "PrimitiveNode"]

/-- The regex `/^text[_]?\d*$/i` used to gather concat inputs. -/
def isTextKey (k : String) : Bool :=
  match k.data.map Char.toLower with
  | 't' :: 'e' :: 'x' :: 't' :: rest =>
    (match rest with
     | '_' :: r => r
     | r => r).all Char.isDigit
  | _ => false

/-- `parseInt(key.replace(/\D/g, '') || '0')`. -/
def keyNum (k : String) : Nat :=
  (k.data.filter Char.isDigit).foldl (fun acc c => acc * 10 + (c.toNat - '0'.toNat)) 0

/-- Stable insertion of a key into a list sorted by `keyNum` (ascending). -/
def insertByNum (x : String) : List String → List String
  | [] => [x]
  | y :: t => if keyNum y ≤ keyNum x then y :: insertByNum x t else x :: y :: t

/-- The stable numeric sort `(a, b) => numA - numB` applied to text keys. -/
def sortTextKeys (l : List String) : List String :=
  l.foldl (fun acc x => insertByNum x acc) []

/-- One step of the last-resort input scan (lines 147-159): a literal
string is accepted when it passes the classifier, trims non-blank and is
longer than 10 characters; an unvisited reference is accepted when its
recursive resolution (`rec`) is non-empty and longer than 10 characters. -/
def lastResortStep (visited' : List String) (rec : JVal → String)
    (kv : String × JVal) : Option String :=
  match kv.2 with
  | jstr s =>
    if isPlainPromptString (jstr s) ∧ jsTrim s ≠ "" ∧ jsLen s > 10 then
      some (jsTrim s)
    else none
  | jarr (jstr tid :: trest) =>
    if visited'.contains tid = false then
      (let resolved := rec (jarr (jstr tid :: trest))
       if resolved ≠ "" ∧ jsLen resolved > 10 then some resolved else none)
    else none
  | _ => none

/-- Computable core of `resolveTextFromRef` (lines 51-162).  The source
counts `depth` up, guarding with `depth > 50` and recursing at
`depth + 1`; here `fuel = 51 - depth` counts down structurally, so
`fuel = 0` is exactly the source's depth guard. -/
def resolveGo (g : Graph) : Nat → JVal → List String → String
  | 0, _, _ => ""
  | fuel + 1, ref, visited =>
    match ref with
    | jstr s => if isPlainPromptString (jstr s) then jsTrim s else ""
    | jobj fields =>
      (match alookup fields "content" with
       | some c =>
         if truthy c then
           (match c with
            | jstr cs => if isPlainPromptString (jstr cs) then jsTrim cs else ""
            | _ => "")
         else ""
       | none => "")
    | jarr (jstr nodeId :: _) =>
      if visited.contains nodeId then ""
      else
        let visited' := nodeId :: visited
        match glookup g nodeId with
        | none => ""
        | some node =>
          let ct := node.class_type
          let inputs := node.inputs
          let showTextHit : Option String :=
            if SHOW_TEXT_TYPES.contains ct then
              ["text_0", "text_1", "text_2", "value", "text"].findSome? (fun key =>
                match alookup inputs key with
                | some (jstr s) => if s ≠ "" ∧ jsTrim s ≠ "" then some (jsTrim s) else none
                | _ => none)
            else none
          match showTextHit with
          | some r => r
          | none =>
            if ct = "ImpactWildcardProcessor" then
              let pop : Option String :=
                match alookup inputs "populated_text" with
                | some (jstr p) => if p ≠ "" ∧ jsTrim p ≠ "" then some (jsTrim p) else none
                | _ => none
              match pop with
              | some r => r
              | none =>
                match alookup inputs "wildcard_text" with
                | some (jstr w) => if w ≠ "" ∧ jsTrim w ≠ "" then jsTrim w else ""
                | _ => ""
            else if TEXT_CONCAT_TYPES.contains ct then
              let separator :=
                match alookup inputs "separator" with
                | some (jstr s) => s
                | _ => " "
              let textKeys := sortTextKeys ((inputs.map Prod.fst).filter isTextKey)
              let parts := (textKeys.map (fun key =>
                resolveGo g fuel ((alookup inputs key).getD jnull) visited')).filter
                  (fun r => r ≠ "")
              jsJoin separator parts
            else
              let crHit : Option String :=
                if ct = "CR Text" ∨ ct = "CR Prompt Text" ∨ ct = "Text" ∨ ct = "String" then
                  match alookup inputs "text" with
                  | some (jstr s) =>
                    if s ≠ "" then some (jsTrim s)
                    else
                      (match alookup inputs "value" with
                       | some (jstr s') => if s' ≠ "" then some (jsTrim s') else none
                       | _ => none)
                  | _ =>
                    (match alookup inputs "value" with
                     | some (jstr s') => if s' ≠ "" then some (jsTrim s') else none
                     | _ => none)
                else none
              match crHit with
              | some r => r
              | none =>
                let clipHit : Option String :=
                  if ct = "CLIPTextEncode" then
                    match alookup inputs "text" with
                    | some tv => if truthy tv then some (resolveGo g fuel tv visited') else none
                    | none => none
                  else none
                match clipHit with
                | some r => r
                | none =>
                  let genHit : Option String :=
                    if TEXT_NODE_TYPES.contains ct ∨ strIncludes ct "Text" = true ∨
                       strIncludes ct "String" = true ∨ strIncludes ct "Prompt" = true then
                      ["text", "prompt", "string", "value", "text_output", "output",
                       "result"].findSome? (fun key =>
                        match alookup inputs key with
                        | some v =>
                          if truthy v then
                            (let resolved := resolveGo g fuel v visited'
                             if resolved ≠ "" then some resolved else none)
                          else none
                        | none => none)
                    else none
                  match genHit with
                  | some r => r
                  | none =>
                    ((inputs.findSome? (lastResortStep visited'
                        (fun v => resolveGo g fuel v visited'))).getD "")
    | _ => ""

/-- `resolveTextFromRef(prompt, ref, visited, depth)`: the source signature,
implemented by the structural core with budget `51 - depth`. -/
def resolveTextFromRef (g : Graph) (ref : JVal) (visited : List String) (depth : Nat) :
    String :=
  resolveGo g (51 - depth) ref visited

/-- The mutable state of one `extractPositivePromptFromPromptObject` call:
the shared `visitedNodes` set and the `collectedTexts` array. -/
structure TraceSt where
  visited : List String
  texts : List String
deriving DecidableEq

/-- `conditioningInputKeys` (lines 239-243). -/
def CONDITIONING_INPUT_KEYS : List String :=
  ["conditioning", "positive", "negative", "cond", "cond_single",
   "base_positive", "base_negative", "cond1", "cond2",
   "conditioning_1", "conditioning_2", "positive_cond", "pos"]

/-- Computable core of `collectAllTextsFromConditioningRef` (lines 183-268,
the positive-prompt variant).  Same `fuel = 51 - depth` encoding as
`resolveGo`; the closure's mutations of `visitedNodes`/`collectedTexts`
are threaded through `TraceSt`. -/
def collectGo (g : Graph) : Nat → JVal → TraceSt → TraceSt
  | 0, _, st => st
  | fuel + 1, ref, st =>
    match ref with
    | jarr (jstr nodeId :: _) =>
      if st.visited.contains nodeId then st
      else
        let st1 : TraceSt := ⟨nodeId :: st.visited, st.texts⟩
        match glookup g nodeId with
        | none => st1
        | some node =>
          let ct := node.class_type
          let inputs := node.inputs
          if ct = "ConditioningConcat" ∨ ct = "ConditioningCombine" then
            let st2 :=
              match alookup inputs "conditioning_to" with
              | some v => if truthy v then collectGo g fuel v st1 else st1
              | none => st1
            let st3 :=
              match alookup inputs "conditioning_from" with
              | some v => if truthy v then collectGo g fuel v st2 else st2
              | none => st2
            inputs.foldl (fun acc kv =>
              if (strStartsWith kv.1 "cond" = true ∨ strStartsWith kv.1 "conditioning" = true) ∧
                 kv.1 ≠ "conditioning_to" ∧ kv.1 ≠ "conditioning_from" then
                collectGo g fuel kv.2 acc
              else acc) st3
          else if ct = "CLIPTextEncode" then
            let text := resolveGo g 51 ((alookup inputs "text").getD jnull) []
            if text ≠ "" ∧ jsTrim text ≠ "" ∧ st1.texts.contains (jsTrim text) = false then
              ⟨st1.visited, st1.texts ++ [jsTrim text]⟩
            else st1
          else if ct = "CFGGuider" ∨ ct = "BasicGuider" ∨ ct = "DualCFGGuider" then
            match alookup inputs "positive" with
            | some v => if truthy v then collectGo g fuel v st1 else st1
            | none => st1
          else
            let st2 := CONDITIONING_INPUT_KEYS.foldl (fun acc key =>
              match alookup inputs key with
              | some (jarr xs) => collectGo g fuel (jarr xs) acc
              | _ => acc) st1
            inputs.foldl (fun acc kv =>
              match kv.2 with
              | jarr (jstr tid :: trest) =>
                if acc.visited.contains tid = false then
                  match glookup g tid with
                  | some refNode =>
                    let refClass := refNode.class_type
                    if strIncludes refClass "Conditioning" = true ∨
                       strIncludes refClass "CLIP" = true ∨
                       refClass = "ConditioningConcat" ∨ refClass = "ConditioningCombine" ∨
                       refClass = "CLIPTextEncode" then
                      collectGo g fuel (jarr (jstr tid :: trest)) acc
                    else acc
                  | none => acc
                else acc
              | _ => acc) st2
    | _ => st

/-- `collectAllTextsFromConditioningRef(ref, depth)` with the source's
depth-counting signature. -/
def collectAllTextsFromConditioningRef (g : Graph) (ref : JVal) (depth : Nat)
    (st : TraceSt) : TraceSt :=
  collectGo g (51 - depth) ref st

/-- `collectedTexts.filter((t, i, arr) => t.trim() !== '' && arr.indexOf(t) === i)`:
keep the first occurrence of each non-blank text, in order. -/
def dedupNonemptyKeepFirst (seen : List String) : List String → List String
  | [] => []
  | t :: r =>
    if jsTrim t ≠ "" ∧ seen.contains t = false then
      t :: dedupNonemptyKeepFirst (t :: seen) r
    else dedupNonemptyKeepFirst (t :: seen) r

/-- `extractPositivePromptFromPromptObject` (lines 173-287). -/
def extractPositivePromptFromPromptObject (g : Graph) (samplerNodeId : String) : String :=
  match glookup g samplerNodeId with
  | none => ""
  | some sampler =>
    let st0 : TraceSt := ⟨[], []⟩
    let st1 :=
      match alookup sampler.inputs "guider" with
      | some v => if truthy v then collectAllTextsFromConditioningRef g v 0 st0 else st0
      | none => st0
    let st2 :=
      match alookup sampler.inputs "positive" with
      | some v => if truthy v then collectAllTextsFromConditioningRef g v 0 st1 else st1
      | none => st1
    jsJoin ", " (dedupNonemptyKeepFirst [] st2.texts)

/-- One LoRA record (`LoraInfo`): `model_strength`/`clip_strength` may be
absent (`inputs[key].strength` can be `undefined`). -/
structure LoraInfo where
  name : JVal
  model_strength : Option JVal
  clip_strength : Option JVal

/-- JS property access on an arbitrary value (`v.k`), `undefined` as `jnull`. -/
def jget (v : JVal) (k : String) : JVal :=
  match v with
  | jobj fields => (alookup fields k).getD jnull
  | _ => jnull

/-- JS property access returning `none` for `undefined` (used where the
source stores the possibly-undefined property). -/
def jgetOpt (v : JVal) (k : String) : Option JVal :=
  match v with
  | jobj fields => alookup fields k
  | _ => none

/-- `extractLorasFromPromptObject` (lines 348-376). -/
def extractLorasFromPromptObject (g : Graph) : List LoraInfo :=
  g.foldl (fun acc nkv =>
    let node := nkv.2
    let ct := if node.class_type ≠ "" then node.class_type else node.ntype
    let inputs := node.inputs
    let acc1 := inputs.foldl (fun a kv =>
      if strStartsWith kv.1 "lora_" = true ∧ truthy kv.2 = true ∧
         truthy (jget kv.2 "on") = true ∧ truthy (jget kv.2 "lora") = true then
        a ++ [⟨jget kv.2 "lora", jgetOpt kv.2 "strength", jgetOpt kv.2 "strengthTwo"⟩]
      else a) acc
    if ct = "LoraLoader" ∧ truthy ((alookup inputs "lora_name").getD jnull) = true then
      acc1 ++ [⟨(alookup inputs "lora_name").getD jnull,
               alookup inputs "strength_model", alookup inputs "strength_clip"⟩]
    else acc1) []

/-- The `params` object built by `extractParametersFromPromptObject`. -/
structure Parameters where
  steps : Option JVal := none
  cfg_scale : Option JVal := none
  sampler : Option JVal := none
  scheduler : Option JVal := none
  seed : Option JVal := none
  model : Option JVal := none
  loras : List LoraInfo := []

/-- The sampler node types the parameter scan reacts to (line 388). -/
def isParamSampler (ct : String) : Bool :=
  ct = "KSampler" || ct = "SamplerCustom" || ct = "FaceDetailerPipe"

/-- The loader node types the parameter scan reacts to (line 397). -/
def isParamLoader (ct : String) : Bool :=
  ct = "CheckpointLoaderSimple" || ct = "CheckpointLoader|pysssss"

/-- One iteration of the `extractParametersFromPromptObject` node loop
(lines 382-401).  Every matching sampler node overwrites the fields it
carries; `noise_seed` fills `seed` only while `seed` is still unset. -/
def paramStep (params : Parameters) (nkv : String × JNode) : Parameters :=
  let node := nkv.2
  let ct := if node.class_type ≠ "" then node.class_type else node.ntype
  let inputs := node.inputs
  let p1 :=
    if isParamSampler ct then
      let a := match alookup inputs "steps" with
        | some jnull => params
        | some v => { params with steps := some v }
        | none => params
      let b := match alookup inputs "cfg" with
        | some jnull => a
        | some v => { a with cfg_scale := some v }
        | none => a
      let c := match alookup inputs "sampler_name" with
        | some v => if truthy v then { b with sampler := some v } else b
        | none => b
      let d := match alookup inputs "scheduler" with
        | some v => if truthy v then { c with scheduler := some v } else c
        | none => c
      let e := match alookup inputs "seed" with
        | some jnull => d
        | some v => { d with seed := some v }
        | none => d
      match alookup inputs "noise_seed" with
      | some jnull => e
      | some v =>
        (match e.seed with
         | none => { e with seed := some v }
         | some _ => e)
      | none => e
    else params
  if isParamLoader ct then
    match alookup inputs "ckpt_name" with
    | some v =>
      if truthy v then
        let q1 := match v with
          | jstr s => { p1 with model := some (jstr s) }
          | _ => p1
        match v with
        | jobj fields =>
          (match alookup fields "content" with
           | some c => if truthy c then { q1 with model := some c } else q1
           | none => q1)
        | _ => q1
      else p1
    | none => p1
  else p1

/-- `extractParametersFromPromptObject` (lines 379-404). -/
def extractParametersFromPromptObject (g : Graph) : Parameters :=
  let p := g.foldl paramStep {}
  { p with loras := extractLorasFromPromptObject g }

/-- `extractSeedFromPromptObject` (lines 407-431). -/
def extractSeedFromPromptObject (g : Graph) (samplerNodeId : String) : String :=
  match glookup g samplerNodeId with
  | none => ""
  | some sampler =>
    match alookup sampler.inputs "seed" with
    | some (jarr (jstr refId :: _)) =>
      (match glookup g refId with
       | some refNode =>
         let fooocus : Option String :=
           if refNode.class_type = "FooocusV2Expansion" then
             match alookup refNode.inputs "prompt_seed" with
             | some jnull => none
             | some v => some (jsToString v)
             | none => none
           else none
         let nonNull : Option JVal → Option JVal := fun o =>
           match o with
           | some jnull => none
           | x => x
         (match fooocus with
          | some r => r
          | none =>
            match nonNull (alookup refNode.inputs "seed") with
            | some v => jsToString v
            | none =>
              match nonNull (alookup refNode.inputs "text") with
              | some v => jsToString v
              | none =>
                match nonNull (alookup refNode.inputs "value") with
                | some v => jsToString v
                | none => "")
       | none => "")
    | some (jstr s) => jsToString (jstr s)
    | some (jnum n) => jsToString (jnum n)
    | _ => ""

/-- `extractByPrompt.steps` (promptMetadataParser.ts lines 773-776). -/
def extractByPromptSteps (g : Graph) : Option String :=
  match (extractParametersFromPromptObject g).steps with
  | some v => some (jsToString v)
  | none => none

/-- `extractByPrompt.cfg_scale` (lines 777-780). -/
def extractByPromptCfgScale (g : Graph) : Option String :=
  match (extractParametersFromPromptObject g).cfg_scale with
  | some v => some (jsToString v)
  | none => none

/-- `extractByPrompt.sampler` (lines 765-768): truthiness-guarded. -/
def extractByPromptSampler (g : Graph) : Option String :=
  match (extractParametersFromPromptObject g).sampler with
  | some v => if truthy v then some (jsToString v) else none
  | none => none

/-- The end-to-end example graph from the specification (claim C1). -/
def exampleGraph : Graph :=
  [("A", { class_type := "CLIPTextEncode", inputs := [("text", jstr "cat")] }),
   ("B", { class_type := "CLIPTextEncode", inputs := [("text", jstr "masterpiece")] }),
   ("C", { class_type := "ConditioningConcat",
           inputs := [("conditioning_to", jarr [jstr "A", jnum 0]),
                      ("conditioning_from", jarr [jstr "B", jnum 0])] }),
   ("D", { class_type := "KSampler",
           inputs := [("positive", jarr [jstr "C", jnum 0]),
                      ("seed", jnum 42), ("steps", jnum 20), ("cfg", jnum 7),
                      ("sampler_name", jstr "euler")] })]

example : extractPositivePromptFromPromptObject exampleGraph "D" = "cat, masterpiece" := by
  decide
example : extractSeedFromPromptObject exampleGraph "D" = "42" := by decide
example : extractByPromptSteps exampleGraph = some "20" := by decide

/-! ### Metadata cache (`MetadataCache.ts`)

JS object *reference identity* (the `entry.raw === rawMetadata` test) is
modelled by tagging every raw-metadata object with a `Nat` token; the
cache state carries an allocation counter `nextRef`, and the fresh `{}`
object the source builds via `file.metadata ?? {}` is modelled by
allocating the next token.  `parseComfyMetadata` (in `metadataParser.ts`,
not part of the sources) is an opaque parameter `parse` acting on the
token of the raw object it is handed. -/

/-- `FileDetails` as the cache sees it: `metadata` is the identity token of
the raw metadata object, `none` when the field is null/undefined. -/
structure FileDetails where
  url : Option String := none
  folder : Option String := none
  name : Option String := none
  metadata : Option Nat := none
  metadata_pending : Bool := false

/-- JS truthiness of an optional string. -/
def truthyStr (o : Option String) : Bool :=
  match o with
  | some s => s ≠ ""
  | none => false

/-- `resolveCacheKey` (MetadataCache.ts lines 14-19). -/
def resolveCacheKey (f : FileDetails) : Option String :=
  if truthyStr f.url then f.url
  else if truthyStr f.folder ∧ truthyStr f.name then
    some ((f.folder.getD "") ++ "/" ++ (f.name.getD ""))
  else f.name

/-- One cache entry: `{ parsed, raw, pending }`. -/
structure CacheEntry (α : Type) where
  parsed : α
  raw : Nat
  pending : Bool

/-- The module-level `metadataCache` map plus the allocation counter for
fresh-object identities. -/
structure CacheState (α : Type) where
  cache : List (String × CacheEntry α)
  nextRef : Nat

/-- `Map.set`: replace the entry for `k`, or append it. -/
def setAssoc {β : Type} : List (String × β) → String → β → List (String × β)
  | [], k, v => [(k, v)]
  | (k', v') :: t, k, v => if k' = k then (k, v) :: t else (k', v') :: setAssoc t k v

/-- `getCachedMetadata` (lines 21-34).  Returns the parsed metadata, the
updated state, and whether `parseComfyMetadata` was invoked. -/
def getCachedMetadata {α : Type} (parse : Nat → α) (emptyParsed : α)
    (s : CacheState α) (file : Option FileDetails) : α × CacheState α × Bool :=
  match file with
  | none => (emptyParsed, s, false)
  | some f =>
    match resolveCacheKey f with
    | none => (emptyParsed, s, false)
    | some key =>
      if key = "" then (emptyParsed, s, false)
      else
        let alloc : Nat × CacheState α :=
          match f.metadata with
          | some r => (r, s)
          | none => (s.nextRef, ⟨s.cache, s.nextRef + 1⟩)
        let rawRef := alloc.1
        let s1 := alloc.2
        let pending := f.metadata_pending
        match alookup s1.cache key with
        | some e =>
          if e.raw = rawRef ∧ e.pending = pending then (e.parsed, s1, false)
          else
            let parsed := parse rawRef
            (parsed, ⟨setAssoc s1.cache key ⟨parsed, rawRef, pending⟩, s1.nextRef⟩, true)
        | none =>
          let parsed := parse rawRef
          (parsed, ⟨setAssoc s1.cache key ⟨parsed, rawRef, pending⟩, s1.nextRef⟩, true)

theorem alookup_setAssoc_self {β : Type} (l : List (String × β)) (k : String) (v : β) :
    alookup (setAssoc l k v) k = some v := by
  induction l with
  | nil => simp [setAssoc, alookup]
  | cons h t ih =>
    obtain ⟨k', v'⟩ := h
    by_cases hk : k' = k
    · subst hk
      simp [setAssoc, alookup]
    · simp [setAssoc, alookup, hk, ih]

theorem alookup_setAssoc_mem {β : Type} (l : List (String × β)) (k k' : String) (v : β)
    (e : β) (h : alookup (setAssoc l k v) k' = some e) :
    e = v ∨ alookup l k' = some e := by
  induction l with
  | nil =>
    simp only [setAssoc, alookup] at h
    split at h
    · exact Or.inl (Option.some.inj h).symm
    · simp at h
  | cons hd t ih =>
    obtain ⟨k₀, v₀⟩ := hd
    by_cases hk : k₀ = k
    · subst hk
      simp only [setAssoc, if_pos rfl, alookup] at h
      split at h
      · exact Or.inl (Option.some.inj h).symm
      · right
        simp only [alookup]
        split
        · rename_i heq
          exact absurd heq (by assumption)
        · exact h
    · simp only [setAssoc, if_neg hk, alookup] at h
      by_cases hk' : k₀ = k'
      · right
        simp only [alookup, if_pos hk']
        rw [if_pos hk'] at h
        exact h
      · rw [if_neg hk'] at h
        rcases ih h with h1 | h1
        · exact Or.inl h1
        · right
          simp only [alookup, if_neg hk']
          exact h1

theorem getCached_entry {α : Type} (parse : Nat → α) (emptyParsed : α)
    (s : CacheState α) (f : FileDetails) (key : String) (r : Nat)
    (hkey : resolveCacheKey f = some key) (hne : key ≠ "") (hraw : f.metadata = some r) :
    alookup (getCachedMetadata parse emptyParsed s (some f)).2.1.cache key =
      some ⟨(getCachedMetadata parse emptyParsed s (some f)).1, r, f.metadata_pending⟩ := by
  simp only [getCachedMetadata, hkey, hraw, if_neg hne]
  cases h : alookup s.cache key with
  | none => simp [h, alookup_setAssoc_self]
  | some e =>
    obtain ⟨ep, er, epend⟩ := e
    by_cases hcond : er = r ∧ epend = f.metadata_pending
    · obtain ⟨h1, h2⟩ := hcond
      subst h1; subst h2
      simp [h]
    · simp [h, hcond, alookup_setAssoc_self]


theorem getCached_of_entry {α : Type} (parse : Nat → α) (emptyParsed : α)
    (s1 : CacheState α) (f : FileDetails) (key : String) (r : Nat) (e : CacheEntry α)
    (hkey : resolveCacheKey f = some key) (hne : key ≠ "") (hraw : f.metadata = some r)
    (hlook : alookup s1.cache key = some e) :
    getCachedMetadata parse emptyParsed s1 (some f) =
      if e.raw = r ∧ e.pending = f.metadata_pending then (e.parsed, s1, false)
      else (parse r,
            ⟨setAssoc s1.cache key ⟨parse r, r, f.metadata_pending⟩, s1.nextRef⟩, true) := by
  simp only [getCachedMetadata, hkey, hraw, if_neg hne, hlook]

/-- C2: for any image identity, a second `getCachedMetadata` call with the
same key, reference-identical raw metadata and equal pending flag returns
the stored parsed value without re-invoking extraction and leaves the
cache unchanged; a call whose raw-metadata reference differs from the
stored one (value equality is irrelevant: the model compares identity
tokens only), or whose pending flag differs, re-invokes extraction and
replaces the stored entry. -/
theorem cache_get_identity {α : Type} (parse : Nat → α) (emptyParsed : α)
    (s : CacheState α) (f : FileDetails) (key : String) (r : Nat)
    (hkey : resolveCacheKey f = some key) (hne : key ≠ "")
    (hraw : f.metadata = some r) :
    (getCachedMetadata parse emptyParsed
        (getCachedMetadata parse emptyParsed s (some f)).2.1 (some f) =
      ((getCachedMetadata parse emptyParsed s (some f)).1,
       (getCachedMetadata parse emptyParsed s (some f)).2.1, false)) ∧
    (∀ r' : Nat, r' ≠ r →
      (getCachedMetadata parse emptyParsed
          (getCachedMetadata parse emptyParsed s (some f)).2.1
          (some { f with metadata := some r' })).2.2 = true ∧
      (getCachedMetadata parse emptyParsed
          (getCachedMetadata parse emptyParsed s (some f)).2.1
          (some { f with metadata := some r' })).1 = parse r' ∧
      alookup (getCachedMetadata parse emptyParsed
          (getCachedMetadata parse emptyParsed s (some f)).2.1
          (some { f with metadata := some r' })).2.1.cache key =
        some ⟨parse r', r', f.metadata_pending⟩) ∧
    ((getCachedMetadata parse emptyParsed
        (getCachedMetadata parse emptyParsed s (some f)).2.1
        (some { f with metadata_pending := !f.metadata_pending })).2.2 = true ∧
     alookup (getCachedMetadata parse emptyParsed
        (getCachedMetadata parse emptyParsed s (some f)).2.1
        (some { f with metadata_pending := !f.metadata_pending })).2.1.cache key =
       some ⟨parse r, r, !f.metadata_pending⟩) := by
  have hstore := getCached_entry parse emptyParsed s f key r hkey hne hraw
  generalize hgen : getCachedMetadata parse emptyParsed s (some f) = out1 at hstore ⊢
  obtain ⟨p1, s1', b1⟩ := out1
  simp only at hstore ⊢
  refine ⟨?_, ?_, ?_⟩
  · rw [getCached_of_entry parse emptyParsed s1' f key r _ hkey hne hraw hstore]
    simp
  · intro r' hr'
    rw [getCached_of_entry parse emptyParsed s1' { f with metadata := some r' }
          key r' _ hkey hne rfl hstore]
    rw [if_neg (by rintro ⟨h1, -⟩; exact hr' h1.symm)]
    exact ⟨rfl, rfl, alookup_setAssoc_self _ _ _⟩
  · rw [getCached_of_entry parse emptyParsed s1'
          { f with metadata_pending := !f.metadata_pending } key r _ hkey hne hraw hstore]
    rw [if_neg (by rintro ⟨-, h2⟩; simp at h2)]
    exact ⟨rfl, alookup_setAssoc_self _ _ _⟩

/-- Concrete file used by the cache witnesses. -/
def cacheWitFile : FileDetails := { url := some "img.png", metadata := some 5 }

/-- Concrete empty cache state used by the cache witnesses. -/
def cacheWitS0 : CacheState Nat := ⟨[], 0⟩

/-- Concrete stub extractor used by the cache witnesses. -/
def cacheWitParse : Nat → Nat := fun n => n + 100

/-- Witness for `cache_get_identity` at a concrete file, state and stub
extractor. -/
theorem cache_get_identity_witness :
    resolveCacheKey cacheWitFile = some "img.png" ∧
    cacheWitFile.metadata = some 5 ∧
    getCachedMetadata cacheWitParse 0
        (getCachedMetadata cacheWitParse 0 cacheWitS0 (some cacheWitFile)).2.1
        (some cacheWitFile) =
      ((getCachedMetadata cacheWitParse 0 cacheWitS0 (some cacheWitFile)).1,
       (getCachedMetadata cacheWitParse 0 cacheWitS0 (some cacheWitFile)).2.1, false) ∧
    (getCachedMetadata cacheWitParse 0
        (getCachedMetadata cacheWitParse 0 cacheWitS0 (some cacheWitFile)).2.1
        (some { cacheWitFile with metadata := some 9 })).2.2 = true :=
  ⟨rfl, rfl,
   (cache_get_identity cacheWitParse 0 cacheWitS0 cacheWitFile "img.png" 5 rfl
      (by decide) rfl).1,
   ((cache_get_identity cacheWitParse 0 cacheWitS0 cacheWitFile "img.png" 5 rfl
      (by decide) rfl).2.1 9 (by decide)).1⟩

/-- Invariant: every stored raw-metadata token was allocated earlier than
the allocation counter. -/
def cacheWF {α : Type} (s : CacheState α) : Prop :=
  ∀ k e, alookup s.cache k = some e → e.raw < s.nextRef

/-- C10: when a file's raw metadata is absent, `getCachedMetadata` builds a
fresh `{}` object (a fresh identity token), so the identity comparison
with any stored entry fails: extraction is re-invoked and the entry
re-stored on every call; the allocation invariant is preserved, so this
repeats forever. -/
theorem cache_absent_metadata_reextracts {α : Type} (parse : Nat → α) (emptyParsed : α)
    (s : CacheState α) (f : FileDetails) (key : String)
    (hkey : resolveCacheKey f = some key) (hne : key ≠ "")
    (hmeta : f.metadata = none) (hwf : cacheWF s) :
    (getCachedMetadata parse emptyParsed s (some f)).2.2 = true ∧
    (getCachedMetadata parse emptyParsed s (some f)).1 = parse s.nextRef ∧
    alookup (getCachedMetadata parse emptyParsed s (some f)).2.1.cache key =
      some ⟨parse s.nextRef, s.nextRef, f.metadata_pending⟩ ∧
    cacheWF (getCachedMetadata parse emptyParsed s (some f)).2.1 := by
  have hres : getCachedMetadata parse emptyParsed s (some f) =
      (parse s.nextRef,
       ⟨setAssoc s.cache key ⟨parse s.nextRef, s.nextRef, f.metadata_pending⟩,
        s.nextRef + 1⟩, true) := by
    simp only [getCachedMetadata, hkey, hmeta, if_neg hne]
    cases h : alookup s.cache key with
    | none => simp [h]
    | some e =>
      have hcond : ¬(e.raw = s.nextRef ∧ e.pending = f.metadata_pending) := by
        rintro ⟨h1, -⟩
        have := hwf key e h
        omega
      simp [h, hcond]
  rw [hres]
  refine ⟨rfl, rfl, alookup_setAssoc_self _ _ _, ?_⟩
  intro k e hk
  rcases alookup_setAssoc_mem _ _ _ _ _ hk with h1 | h1
  · subst h1
    simp
  · have := hwf k e h1
    simp
    omega

/-- Witness for `cache_absent_metadata_reextracts`: a state already holding
an entry for the key still re-invokes extraction when metadata is absent. -/
theorem cache_absent_metadata_reextracts_witness :
    (getCachedMetadata cacheWitParse 0
        (⟨[("img.png", ⟨7, 3, false⟩)], 4⟩ : CacheState Nat)
        (some { url := some "img.png" })).2.2 = true ∧
    (getCachedMetadata cacheWitParse 0
        (⟨[("img.png", ⟨7, 3, false⟩)], 4⟩ : CacheState Nat)
        (some { url := some "img.png" })).1 = cacheWitParse 4 :=
  have h := cache_absent_metadata_reextracts cacheWitParse 0
    (⟨[("img.png", ⟨7, 3, false⟩)], 4⟩ : CacheState Nat)
    { url := some "img.png" } "img.png" rfl (by decide) rfl
    (by
      intro k e hk
      simp only [alookup] at hk
      split at hk
      · cases hk
        decide
      · cases hk)
  ⟨h.1, h.2.1⟩

/-- C1: on the spec's end-to-end example graph, the execution-record
extractors return positive `"cat, masterpiece"` (the `conditioning_to`
branch before the `conditioning_from` branch, joined with a comma), seed
`"42"`, steps `"20"`, cfg `"7"` and sampler `"euler"`. -/
theorem end_to_end_example :
    extractPositivePromptFromPromptObject exampleGraph "D" = "cat, masterpiece" ∧
    extractSeedFromPromptObject exampleGraph "D" = "42" ∧
    extractByPromptSteps exampleGraph = some "20" ∧
    extractByPromptCfgScale exampleGraph = some "7" ∧
    extractByPromptSampler exampleGraph = some "euler" :=
  ⟨by decide, by decide, by decide, by decide, by decide⟩

/-! ### Claim C4: the Value Classifier -/

/-- JS `a.endsWith(b)`. -/
def strEndsWith (s pat : String) : Bool := pat.data.reverse.isPrefixOf s.data.reverse

/-- JS `s.split(',').length`: number of comma-separated segments. -/
def commaSegments (s : String) : Nat := s.data.count ',' + 1

/-- A 13-character chunk holding exactly one comma. -/
def commaChunk : List Char := ',' :: List.replicate 12 'a'

/-- `1951 + k` letters-and-commas with exactly 150 commas, starting and
(for `k ≥ 1`) ending with a letter; contains no whitespace. -/
def proseCore (k : Nat) : List Char :=
  'a' :: (List.flatten (List.replicate 150 commaChunk) ++ List.replicate k 'a')

/-- A 3000-character, 150-comma string: 1000 leading spaces followed by a
2000-character tail, so its *trimmed* length is exactly 2000. -/
def cexPadded : String := String.mk (List.replicate 1000 ' ' ++ proseCore 49)

/-- A 3000-character, 150-comma string with no whitespace at all. -/
def bigComma3000 : String := String.mk (proseCore 1049)

theorem length_flatten_replicate (n : Nat) (l : List Char) :
    (List.flatten (List.replicate n l)).length = n * l.length := by
  induction n with
  | zero => simp
  | succ m ih =>
    rw [List.replicate_succ, List.flatten_cons, List.length_append, ih]
    ring

theorem length_proseCore (k : Nat) : (proseCore k).length = 1951 + k := by
  rw [proseCore, List.length_cons, List.length_append, length_flatten_replicate,
    List.length_replicate]
  rw [show commaChunk.length = 13 from by decide]
  omega

theorem count_flatten_replicate (c : Char) (l : List Char) (n : Nat) :
    (List.flatten (List.replicate n l)).count c = n * l.count c := by
  induction n with
  | zero => simp
  | succ m ih =>
    rw [List.replicate_succ, List.flatten_cons, List.count_append, ih]
    ring

theorem count_proseCore (k : Nat) : (proseCore k).count ',' = 150 := by
  rw [proseCore, List.count_cons, List.count_append, count_flatten_replicate,
    show commaChunk.count ',' = 1 from by decide, List.count_replicate]
  simp

theorem dropWhile_replicate_space (n : Nat) (l : List Char) :
    List.dropWhile isJsWs (List.replicate n ' ' ++ l) = List.dropWhile isJsWs l := by
  induction n with
  | zero => simp
  | succ m ih =>
    rw [List.replicate_succ, List.cons_append, List.dropWhile_cons_of_pos (by decide)]
    exact ih

theorem dropWhile_reverse_prose (j : Nat) (F : List Char) :
    List.dropWhile isJsWs ('a' :: (F ++ List.replicate (j + 1) 'a')).reverse =
      ('a' :: (F ++ List.replicate (j + 1) 'a')).reverse := by
  rw [List.reverse_cons, List.reverse_append, List.reverse_replicate, List.replicate_succ,
    List.cons_append, List.cons_append, List.dropWhile_cons_of_neg (by decide)]

theorem trimChars_proseCore (pad j : Nat) :
    trimChars (List.replicate pad ' ' ++ proseCore (j + 1)) = proseCore (j + 1) := by
  unfold trimChars
  rw [dropWhile_replicate_space, proseCore]
  rw [List.dropWhile_cons_of_neg (by decide)]
  rw [dropWhile_reverse_prose, List.reverse_reverse]

theorem isPlain_cexPadded : isPlainPromptString (jstr cexPadded) = true := by
  have htrim : trimChars cexPadded.data = proseCore 49 := by
    have h0 : cexPadded.data = List.replicate 1000 ' ' ++ proseCore (48 + 1) := rfl
    rw [h0, trimChars_proseCore]
  simp only [isPlainPromptString, htrim]
  rw [show (proseCore 49).head? = some 'a' from rfl,
    show (proseCore 49).length = 2000 from by rw [length_proseCore]]
  simp

theorem isPlain_bigComma3000 : isPlainPromptString (jstr bigComma3000) = false := by
  have htrim : trimChars bigComma3000.data = proseCore 1049 := by
    have h0 : bigComma3000.data = List.replicate 0 ' ' ++ proseCore (1048 + 1) := rfl
    rw [h0, trimChars_proseCore]
  simp only [isPlainPromptString, htrim]
  rw [show (proseCore 1049).head? = some 'a' from rfl,
    show (proseCore 1049).length = 3000 from by rw [length_proseCore], count_proseCore]
  simp

/-- C4 counterexample: `cexPadded` is a 3000-character string containing
150 commas (151 comma-separated segments, more than 100), yet the
classifier accepts it, because the length test is applied to the *trimmed*
string (2000 characters here) and not to the string itself. -/
theorem classifier_untrimmed_length_cex :
    isPlainPromptString (jstr cexPadded) = true ∧
    jsLen cexPadded = 3000 ∧
    commaSegments cexPadded = 151 ∧
    jsLen (jsTrim cexPadded) = 2000 := by
  refine ⟨isPlain_cexPadded, ?_, ?_, ?_⟩
  · show cexPadded.data.length = 3000
    rw [show cexPadded.data = List.replicate 1000 ' ' ++ proseCore 49 from rfl,
      List.length_append, List.length_replicate, length_proseCore]
  · show cexPadded.data.count ',' + 1 = 151
    rw [show cexPadded.data = List.replicate 1000 ' ' ++ proseCore 49 from rfl,
      List.count_append, List.count_replicate, count_proseCore]
    simp
  · have htrim : trimChars cexPadded.data = proseCore (48 + 1) := by
      rw [show cexPadded.data = List.replicate 1000 ' ' ++ proseCore (48 + 1) from rfl,
        trimChars_proseCore]
    simp only [jsLen, jsTrim, htrim, length_proseCore]

/-- C4 (amended): the classifier rejects every non-string; a string is
accepted iff its trimmed form is not brace/bracket-delimited and its
*trimmed* form is not simultaneously longer than 2000 characters and made
of more than 100 comma-separated segments; in particular an array-shaped
string and a whitespace-free 3000-character 150-comma string are rejected. -/
theorem classifier_characterization :
    (∀ v : JVal, isPlainPromptString v = true → ∃ s, v = jstr s) ∧
    (∀ s : String,
      isPlainPromptString (jstr s) = true ↔
        (¬((jsTrim s).data.head? = some '\x7b' ∧ (jsTrim s).data.getLast? = some '\x7d') ∧
         ¬((jsTrim s).data.head? = some '[' ∧ (jsTrim s).data.getLast? = some ']') ∧
         ¬(jsLen (jsTrim s) > 2000 ∧ commaSegments (jsTrim s) > 100))) ∧
    isPlainPromptString (jstr "[1,2,3,4,5,6,7,8]") = false ∧
    isPlainPromptString (jstr bigComma3000) = false := by
  refine ⟨?_, ?_, by decide, isPlain_bigComma3000⟩
  · intro v hv
    cases v with
    | jstr s => exact ⟨s, rfl⟩
    | jnull => simp [isPlainPromptString] at hv
    | jnum n => simp [isPlainPromptString] at hv
    | jbool b => simp [isPlainPromptString] at hv
    | jarr xs => simp [isPlainPromptString] at hv
    | jobj fs => simp [isPlainPromptString] at hv
  · intro s
    simp only [isPlainPromptString]
    by_cases hA : (trimChars s.data).head? = some '\x7b' <;>
    by_cases hB : (trimChars s.data).getLast? = some '\x7d' <;>
    by_cases hC : (trimChars s.data).head? = some '[' <;>
    by_cases hD : (trimChars s.data).getLast? = some ']' <;>
    by_cases hE : (trimChars s.data).length > 2000 <;>
    by_cases hF : (trimChars s.data).count ',' + 1 > 100 <;>
    simp [hA, hB, hC, hD, hE, hF, jsTrim, jsLen, commaSegments]

/-! ### Claim C5: the wildcard-processor rule -/

theorem resolveTextFromRef_unfold (g : Graph) (ref : JVal) (visited : List String)
    (depth : Nat) (h : depth ≤ 50) :
    resolveTextFromRef g ref visited depth = resolveGo g ((50 - depth) + 1) ref visited := by
  rw [resolveTextFromRef, show 51 - depth = (50 - depth) + 1 from by omega]

theorem jsTrim_ne_of_trim_ne (p : String) (h : jsTrim p ≠ "") : p ≠ "" := by
  intro he
  exact h (by rw [he]; rfl)

/-- The node carries a populated (resolved) field that is a string with
non-blank trim. -/
def notBlankPopulated (inputs : List (String × JVal)) : Prop :=
  ∃ p, alookup inputs "populated_text" = some (jstr p) ∧ jsTrim p ≠ ""

/-- The node carries a raw template field that is a string with non-blank
trim. -/
def notBlankTemplate (inputs : List (String × JVal)) : Prop :=
  ∃ w, alookup inputs "wildcard_text" = some (jstr w) ∧ jsTrim w ≠ ""

/-- C5: a reference to an unvisited `ImpactWildcardProcessor` node within
the depth bound resolves to the trimmed populated field when that is a
non-blank string, otherwise to the trimmed raw template field when that is
a non-blank string, and otherwise to the empty string — the node never
falls through to the generic field-list or last-resort handling. -/
theorem resolve_wildcard_processor (g : Graph) (id : String) (rest : List JVal)
    (visited : List String) (depth : Nat) (node : JNode)
    (hdepth : depth ≤ 50) (hvis : visited.contains id = false)
    (hnode : glookup g id = some node)
    (hct : node.class_type = "ImpactWildcardProcessor") :
    (∀ p, alookup node.inputs "populated_text" = some (jstr p) → jsTrim p ≠ "" →
      resolveTextFromRef g (jarr (jstr id :: rest)) visited depth = jsTrim p) ∧
    (∀ w, ¬ notBlankPopulated node.inputs →
      alookup node.inputs "wildcard_text" = some (jstr w) → jsTrim w ≠ "" →
      resolveTextFromRef g (jarr (jstr id :: rest)) visited depth = jsTrim w) ∧
    (¬ notBlankPopulated node.inputs → ¬ notBlankTemplate node.inputs →
      resolveTextFromRef g (jarr (jstr id :: rest)) visited depth = "") := by
  refine ⟨?_, ?_, ?_⟩
  · intro p hp htp
    rw [resolveTextFromRef_unfold _ _ _ _ hdepth]
    simp only [resolveGo, hvis, hnode, hct, Bool.false_eq_true, if_false]
    rw [show SHOW_TEXT_TYPES.contains "ImpactWildcardProcessor" = false from by decide]
    simp only [Bool.false_eq_true, if_false, eq_self_iff_true, if_true, hp]
    simp [htp, jsTrim_ne_of_trim_ne p htp]
  · intro w hnp hw htw
    rw [resolveTextFromRef_unfold _ _ _ _ hdepth]
    simp only [resolveGo, hvis, hnode, hct, Bool.false_eq_true, if_false]
    rw [show SHOW_TEXT_TYPES.contains "ImpactWildcardProcessor" = false from by decide]
    simp only [Bool.false_eq_true, if_false, eq_self_iff_true, if_true, hw]
    cases hp : alookup node.inputs "populated_text" with
    | none => simp [hp, htw, jsTrim_ne_of_trim_ne w htw]
    | some v =>
      rcases v with _ | p | n | b | xs | fs
      case jstr =>
        have htp : jsTrim p = "" := by
          by_contra hc
          exact hnp ⟨p, hp, hc⟩
        simp [hp, htp, htw, jsTrim_ne_of_trim_ne w htw]
      all_goals simp [hp, htw, jsTrim_ne_of_trim_ne w htw]
  · intro hnp hnw
    rw [resolveTextFromRef_unfold _ _ _ _ hdepth]
    simp only [resolveGo, hvis, hnode, hct, Bool.false_eq_true, if_false]
    rw [show SHOW_TEXT_TYPES.contains "ImpactWildcardProcessor" = false from by decide]
    simp only [Bool.false_eq_true, if_false, eq_self_iff_true, if_true]
    cases hp : alookup node.inputs "populated_text" with
    | none =>
      cases hw : alookup node.inputs "wildcard_text" with
      | none => simp [hp, hw]
      | some v =>
        rcases v with _ | ws | n | b | xs | fs
        case jstr =>
          have htw : jsTrim ws = "" := by
            by_contra hc
            exact hnw ⟨ws, hw, hc⟩
          simp [hp, hw, htw]
        all_goals simp [hp, hw]
    | some v =>
      rcases v with _ | p | n | b | xs | fs
      case jstr =>
        have htp : jsTrim p = "" := by
          by_contra hc
          exact hnp ⟨p, hp, hc⟩
        cases hw : alookup node.inputs "wildcard_text" with
        | none => simp [hp, hw, htp]
        | some v' =>
          rcases v' with _ | ws | n | b | xs | fs
          case jstr =>
            have htw : jsTrim ws = "" := by
              by_contra hc
              exact hnw ⟨ws, hw, hc⟩
            simp [hp, hw, htw, htp]
          all_goals simp [hp, hw, htp]
      all_goals {
        cases hw : alookup node.inputs "wildcard_text" with
        | none => simp [hp, hw]
        | some v' =>
          rcases v' with _ | ws | n | b | xs | fs
          case jstr =>
            have htw : jsTrim ws = "" := by
              by_contra hc
              exact hnw ⟨ws, hw, hc⟩
            simp [hp, hw, htw]
          all_goals simp [hp, hw]
      }

/-- Concrete wildcard-processor graph for the C5 witness. -/
def wildcardWitGraph : Graph :=
  [("w", { class_type := "ImpactWildcardProcessor",
           inputs := [("wildcard_text", jstr "__animal__ large"),
                      ("populated_text", jstr "cat large")] })]

/-- Witness for `resolve_wildcard_processor`: with both fields present the
populated field wins. -/
theorem resolve_wildcard_processor_witness :
    resolveTextFromRef wildcardWitGraph (jarr [jstr "w", jnum 0]) [] 0 = "cat large" := by
  have h := (resolve_wildcard_processor wildcardWitGraph "w" [jnum 0] [] 0
    { class_type := "ImpactWildcardProcessor",
      inputs := [("wildcard_text", jstr "__animal__ large"),
                 ("populated_text", jstr "cat large")] }
    (by decide) (by decide) rfl rfl).1 "cat large" rfl (by decide)
  rw [h]
  decide

/-! ### Claim C6: the parameter extractor -/

/-- `node.class_type || node.type || ''`. -/
def anchorCT (nkv : String × JNode) : String :=
  if nkv.2.class_type ≠ "" then nkv.2.class_type else nkv.2.ntype

theorem isParamLoader_false_of_sampler (ct : String) (h : isParamSampler ct = true) :
    isParamLoader ct = false := by
  simp only [isParamSampler, Bool.or_eq_true, decide_eq_true_eq] at h
  rcases h with (h | h) | h <;> subst h <;> decide

/-- Concrete graph with two anchor nodes carrying different step counts. -/
def twoSamplerGraph : Graph :=
  [("1", { class_type := "KSampler", inputs := [("steps", jnum 20)] }),
   ("2", { class_type := "KSampler", inputs := [("steps", jnum 30)] })]

/-- C6 counterexample: with two `KSampler` nodes carrying `steps` 20 and
30 (in scan order), the extractor reports 30 — the claim's "the FIRST
anchor-type node supplies steps ... later anchor-type nodes do not change
these fields" fails, because every matching node overwrites the fields. -/
theorem parameters_first_anchor_cex :
    (extractParametersFromPromptObject twoSamplerGraph).steps = some (jnum 30) ∧
    alookup ({ class_type := "KSampler",
               inputs := [("steps", jnum 20)] } : JNode).inputs "steps" = some (jnum 20) ∧
    (some (jnum 30) : Option JVal) ≠ some (jnum 20) := by
  refine ⟨rfl, rfl, ?_⟩
  simp

/-- C6 (amended): the parameter scan is last-writer-wins per field — an
anchor-type node appended after any prefix of the scan supplies `steps`,
`cfg_scale`, `sampler`, `scheduler` and `seed` from its own inputs,
overwriting whatever earlier anchors set; and the alternate seed field
`noise_seed` is consulted only when no seed value has been recorded so
far in the scan (an anchor carrying only `noise_seed` fills an absent
seed but never overwrites a recorded one). -/
theorem extract_parameters_last_wins :
    (∀ (g : List (String × JNode)) (id : String) (node : JNode)
       (ns nc nd : Int) (sa sc : String),
      isParamSampler (anchorCT (id, node)) = true →
      alookup node.inputs "steps" = some (jnum ns) →
      alookup node.inputs "cfg" = some (jnum nc) →
      alookup node.inputs "sampler_name" = some (jstr sa) → sa ≠ "" →
      alookup node.inputs "scheduler" = some (jstr sc) → sc ≠ "" →
      alookup node.inputs "seed" = some (jnum nd) →
      (extractParametersFromPromptObject (g ++ [(id, node)])).steps = some (jnum ns) ∧
      (extractParametersFromPromptObject (g ++ [(id, node)])).cfg_scale = some (jnum nc) ∧
      (extractParametersFromPromptObject (g ++ [(id, node)])).sampler = some (jstr sa) ∧
      (extractParametersFromPromptObject (g ++ [(id, node)])).scheduler = some (jstr sc) ∧
      (extractParametersFromPromptObject (g ++ [(id, node)])).seed = some (jnum nd)) ∧
    (∀ (g : List (String × JNode)) (id : String) (node : JNode) (w : Int),
      isParamSampler (anchorCT (id, node)) = true →
      alookup node.inputs "steps" = none →
      alookup node.inputs "cfg" = none →
      alookup node.inputs "sampler_name" = none →
      alookup node.inputs "scheduler" = none →
      alookup node.inputs "seed" = none →
      alookup node.inputs "noise_seed" = some (jnum w) →
      (extractParametersFromPromptObject (g ++ [(id, node)])).seed =
        (match (extractParametersFromPromptObject g).seed with
         | some a => some a
         | none => some (jnum w))) := by
  constructor
  · intro g id node ns nc nd sa sc hS h1 h2 h3 hsa h4 hsc h5
    simp only [anchorCT] at hS
    have hL := isParamLoader_false_of_sampler _ hS
    have ht1 : truthy (jstr sa) = true := by simp [truthy, hsa]
    have ht2 : truthy (jstr sc) = true := by simp [truthy, hsc]
    simp only [extractParametersFromPromptObject, List.foldl_append, List.foldl_cons,
      List.foldl_nil]
    simp only [paramStep, hS, hL, h1, h2, h3, h4, h5, ht1, ht2, if_true,
      Bool.false_eq_true, if_false]
    cases h6 : alookup node.inputs "noise_seed" with
    | none => exact ⟨rfl, rfl, rfl, rfl, rfl⟩
    | some v => cases v <;> exact ⟨rfl, rfl, rfl, rfl, rfl⟩
  · intro g id node w hS h1 h2 h3 h4 h5 h6
    simp only [anchorCT] at hS
    have hL := isParamLoader_false_of_sampler _ hS
    simp only [extractParametersFromPromptObject, List.foldl_append, List.foldl_cons,
      List.foldl_nil]
    simp only [paramStep, hS, hL, h1, h2, h3, h4, h5, h6, if_true, Bool.false_eq_true,
      if_false]
    cases hq : (List.foldl paramStep {} g).seed with
    | none => rfl
    | some a => exact hq

/-- The overriding second sampler node used by the C6 witness. -/
def lastWinsNode : JNode :=
  { class_type := "KSampler",
    inputs := [("steps", jnum 30), ("cfg", jnum 7), ("sampler_name", jstr "euler"),
               ("scheduler", jstr "normal"), ("seed", jnum 99)] }

/-- The noise-seed-only sampler node used by the C6 witness. -/
def noiseOnlyNode : JNode :=
  { class_type := "KSampler", inputs := [("noise_seed", jnum 7)] }

/-- Witness for `extract_parameters_last_wins`: a second sampler node
overrides all five fields of the first, and a noise-seed-only node does
not override an earlier recorded seed. -/
theorem extract_parameters_last_wins_witness :
    (extractParametersFromPromptObject
        ([("1", { class_type := "KSampler", inputs := [("steps", jnum 20)] })] ++
         [("2", lastWinsNode)])).steps = some (jnum 30) ∧
    (extractParametersFromPromptObject
        ([("1", { class_type := "KSampler", inputs := [("seed", jnum 5)] })] ++
         [("2", noiseOnlyNode)])).seed = some (jnum 5) := by
  constructor
  · exact ((extract_parameters_last_wins.1
      [("1", { class_type := "KSampler", inputs := [("steps", jnum 20)] })]
      "2" lastWinsNode 30 7 99 "euler" "normal"
      (by decide) rfl rfl rfl (by decide) rfl (by decide) rfl).1)
  · exact (extract_parameters_last_wins.2
      [("1", { class_type := "KSampler", inputs := [("seed", jnum 5)] })]
      "2" noiseOnlyNode 7
      (by decide) rfl rfl rfl rfl rfl rfl).trans (by rfl)

/-! ### Claim C7: the last-resort input scan -/

/-- Concrete graph whose only node matches no resolution rule and carries
a literal string of exactly 10 characters. -/
def tenCharGraph : Graph :=
  [("n", { class_type := "Mystery", inputs := [("x", jstr "abcdefghij")] })]

/-- C7 counterexample: a last-resort node input holding a classifier-
passing, non-blank literal string of exactly 10 characters is *not*
accepted (the source requires `val.length > 10`, strictly more than 10),
so the claim's "at least 10 characters" fails at length 10. -/
theorem last_resort_ten_char_cex :
    isPlainPromptString (jstr "abcdefghij") = true ∧
    jsLen "abcdefghij" = 10 ∧
    jsTrim "abcdefghij" = "abcdefghij" ∧
    resolveTextFromRef tenCharGraph (jarr [jstr "n", jnum 0]) [] 0 = "" := by
  refine ⟨by decide, by decide, by decide, by decide⟩

/-- C7 (amended): on a referenced node matched by no earlier rule the
resolver returns exactly the first-match last-resort scan of the node's
inputs, where a literal string is accepted iff it passes the classifier,
trims non-blank and is strictly longer than 10 characters, and an
unvisited reference is accepted iff its one-level-deeper recursive
resolution is non-empty and strictly longer than 10 characters. -/
theorem resolve_last_resort (g : Graph) (id : String) (rest : List JVal)
    (visited : List String) (depth : Nat) (node : JNode)
    (hdepth : depth ≤ 50) (hvis : visited.contains id = false)
    (hnode : glookup g id = some node)
    (hshow : SHOW_TEXT_TYPES.contains node.class_type = false)
    (hwild : node.class_type ≠ "ImpactWildcardProcessor")
    (hconcat : TEXT_CONCAT_TYPES.contains node.class_type = false)
    (hcr1 : node.class_type ≠ "CR Text") (hcr2 : node.class_type ≠ "CR Prompt Text")
    (hcr3 : node.class_type ≠ "Text") (hcr4 : node.class_type ≠ "String")
    (hclip : node.class_type ≠ "CLIPTextEncode")
    (hgen1 : TEXT_NODE_TYPES.contains node.class_type = false)
    (hgen2 : strIncludes node.class_type "Text" = false)
    (hgen3 : strIncludes node.class_type "String" = false)
    (hgen4 : strIncludes node.class_type "Prompt" = false) :
    (resolveTextFromRef g (jarr (jstr id :: rest)) visited depth =
      ((node.inputs.findSome? (lastResortStep (id :: visited)
          (fun v => resolveGo g (50 - depth) v (id :: visited)))).getD "")) ∧
    (∀ (k s : String), isPlainPromptString (jstr s) = true → jsTrim s ≠ "" →
      jsLen s > 10 →
      lastResortStep (id :: visited) (fun v => resolveGo g (50 - depth) v (id :: visited))
        (k, jstr s) = some (jsTrim s)) ∧
    (∀ (k s : String), jsLen s ≤ 10 →
      lastResortStep (id :: visited) (fun v => resolveGo g (50 - depth) v (id :: visited))
        (k, jstr s) = none) ∧
    (∀ (k tid : String) (trest : List JVal), (id :: visited).contains tid = false →
      resolveGo g (50 - depth) (jarr (jstr tid :: trest)) (id :: visited) ≠ "" →
      jsLen (resolveGo g (50 - depth) (jarr (jstr tid :: trest)) (id :: visited)) > 10 →
      lastResortStep (id :: visited) (fun v => resolveGo g (50 - depth) v (id :: visited))
        (k, jarr (jstr tid :: trest)) =
        some (resolveGo g (50 - depth) (jarr (jstr tid :: trest)) (id :: visited))) := by
  refine ⟨?_, ?_, ?_, ?_⟩
  · rw [resolveTextFromRef_unfold _ _ _ _ hdepth]
    simp only [resolveGo, hvis, hnode, Bool.false_eq_true, if_false, hshow, hwild,
      hconcat, hcr1, hcr2, hcr3, hcr4, hclip, hgen1, hgen2, hgen3, hgen4, ite_false,
      false_or, or_self, if_false]
  · intro k s h1 h2 h3
    simp [lastResortStep, h1, h2, h3]
  · intro k s hle
    simp only [lastResortStep]
    rw [if_neg]
    rintro ⟨-, -, hgt⟩
    omega
  · intro k tid trest hv hne hgt
    simp [lastResortStep, hne, hgt]
    simpa using hv

/-- Concrete graph for the C7 witness: an 11-character literal after a
rejected numeric input. -/
def lastResortWitGraph : Graph :=
  [("n", { class_type := "Mystery",
           inputs := [("a", jnum 1), ("x", jstr "abcdefghijk")] })]

/-- Witness for `resolve_last_resort`: on the concrete graph the scan
accepts the 11-character literal and the resolver returns it. -/
theorem resolve_last_resort_witness :
    resolveTextFromRef lastResortWitGraph (jarr [jstr "n", jnum 0]) [] 0 = "abcdefghijk" ∧
    lastResortStep ["n"] (fun v => resolveGo lastResortWitGraph 50 v ["n"])
      ("x", jstr "abcdefghijk") = some "abcdefghijk" := by
  have h := resolve_last_resort lastResortWitGraph "n" [jnum 0] [] 0
    { class_type := "Mystery", inputs := [("a", jnum 1), ("x", jstr "abcdefghijk")] }
    (by decide) (by decide) rfl (by decide) (by decide) (by decide) (by decide)
    (by decide) (by decide) (by decide) (by decide) (by decide) (by decide)
    (by decide) (by decide)
  constructor
  · exact h.1.trans (by decide)
  · exact (h.2.1 "x" "abcdefghijk" (by decide) (by decide) (by decide)).trans (by decide)

/-! ### Layout graph (`workflowMetadataParser.ts`)

Link-based graph walking.  `findSourcePromptNode` and
`collectAllPromptsFromGraph` terminate in the source because every
recursive call happens strictly after inserting a previously-unvisited
node id into the shared `visited` set, and recursion targets come from
`nodes`; a recursion chain can therefore nest at most one level per
distinct node id.  The embedding makes this explicit with a fuel argument
consumed only at those recursion points, seeded with `nodes.length + 2`,
which by the argument above can never be exhausted. -/

/-- A named input slot of a layout node. -/
structure LInput where
  name : String := ""
  link : Option Int := none
  value : Option JVal := none

/-- An output slot of a layout node. -/
structure LOutput where
  links : Option (List Int) := none

/-- A layout-graph node; `none` for `inputs`/`outputs`/`widgets_values`
models a field that is absent or not an array. -/
structure LNode where
  id : Int := 0
  ntype : String := ""
  inputs : Option (List LInput) := none
  outputs : Option (List LOutput) := none
  widgets_values : Option (List JVal) := none

/-- `CONDITIONING_COMBINE_TYPES` (workflowMetadataParser.ts lines 13-18). -/
def CONDITIONING_COMBINE_TYPES_G : List String :=
  ["ConditioningCombine", "ConditioningConcat", "ConditioningSetTimestepRange",
   "ConditioningAverage", "ConditioningSetArea", "ConditioningSetAreaPercentage",
   "easy positive", "easy negative", "easy promptConcat",
   "ImpactCombineConditionings"]

/-- `TEXT_NODE_TYPES` of the workflow parser (lines 21-26). -/
def TEXT_NODE_TYPES_G : List String :=
  ["CLIPTextEncode", "CR Prompt Text", "ImpactWildcardProcessor", "Textbox",
   "easy showAnything", "StringFunction", "Text Multiline", "String", "Text",
   "Text Concatenate", "CR Text Concatenate", "StringConcat",
   "ShowText", "Note", "PrimitiveNode"]

/-- Does one of `node.outputs[].links` contain `linkId`? -/
def nodeHasLink (node : LNode) (linkId : Int) : Bool :=
  match node.outputs with
  | some outs => outs.any (fun out =>
      match out.links with
      | some ls => ls.contains linkId
      | none => false)
  | none => false

/-- `node.widgets_values?.[0]` (undefined as `jnull`). -/
def widget0 (n : LNode) : JVal :=
  match n.widgets_values with
  | some (w :: _) => w
  | _ => jnull

/-- Fuel-explicit core of `findSourcePromptNode` (lines 125-149): scan all
nodes for an output carrying `linkId`; a matching `CLIPTextEncode` with a
plain first widget is returned directly, otherwise the matching node's
input links are followed recursively with the shared `visited` set. -/
def findSrcGo (nodes : List LNode) : Nat → Int → List Int → Option LNode × List Int
  | 0, _, visited => (none, visited)
  | fuel + 1, linkId, visited =>
    nodes.foldl (fun (acc : Option LNode × List Int) node =>
      match acc.1 with
      | some _ => acc
      | none =>
        let visited0 := acc.2
        if nodeHasLink node linkId then
          if node.ntype = "CLIPTextEncode" ∧ isPlainPromptString (widget0 node) = true then
            (some node, visited0)
          else if visited0.contains node.id = false then
            let visited1 := node.id :: visited0
            (match node.inputs with
             | some inps =>
               inps.foldl (fun (acc2 : Option LNode × List Int) inp =>
                 match acc2.1 with
                 | some _ => acc2
                 | none =>
                   match inp.link with
                   | some l => findSrcGo nodes fuel l acc2.2
                   | none => acc2) ((none : Option LNode), visited1)
             | none => ((none : Option LNode), visited1))
          else (none, visited0)
        else (none, visited0)) ((none : Option LNode), visited)

/-- `findSourcePromptNode(nodes, linkId, visited)`. -/
def findSourcePromptNode (nodes : List LNode) (linkId : Option Int)
    (visited : List Int) : Option LNode × List Int :=
  match linkId with
  | some l => findSrcGo nodes (nodes.length + 2) l visited
  | none => (none, visited)

/-- Fuel-explicit core of `collectAllPromptsFromGraph` (lines 32-113):
returns the collected texts of this subtree and the grown shared
`visited` set. -/
def collectGoL (nodes : List LNode) : Nat → LNode → List Int → List String × List Int
  | 0, _, visited => ([], visited)
  | fuel + 1, node, visited =>
    if visited.contains node.id then ([], visited)
    else
      let visited1 := node.id :: visited
      let nt := node.ntype
      let wild : Option String :=
        if nt = "ImpactWildcardProcessor" then
          match node.widgets_values with
          | some ws =>
            (match ws.getD 1 jnull with
             | jstr p =>
               if isPlainPromptString (jstr p) ∧ jsTrim p ≠ "" then some (jsTrim p)
               else
                 (match ws.getD 0 jnull with
                  | jstr w => if isPlainPromptString (jstr w) ∧ jsTrim w ≠ "" then
                      some (jsTrim w) else none
                  | _ => none)
             | _ =>
               (match ws.getD 0 jnull with
                | jstr w => if isPlainPromptString (jstr w) ∧ jsTrim w ≠ "" then
                    some (jsTrim w) else none
                | _ => none))
          | none => none
        else none
      match wild with
      | some t => ([t], visited1)
      | none =>
        if CONDITIONING_COMBINE_TYPES_G.contains nt then
          match node.inputs with
          | some inps =>
            inps.foldl (fun (acc : List String × List Int) inp =>
              if strStartsWith inp.name "cond" = true ∨
                 strStartsWith inp.name "conditioning" = true ∨
                 inp.name = "positive" ∨ inp.name = "negative" then
                match inp.link with
                | some l =>
                  (match (findSourcePromptNode nodes (some l) []).1 with
                   | some upstream =>
                     let r := collectGoL nodes fuel upstream acc.2
                     (acc.1 ++ r.1, r.2)
                   | none => acc)
                | none => acc
              else acc) (([] : List String), visited1)
          | none => ([], visited1)
        else if TEXT_NODE_TYPES_G.contains nt ∨ strIncludes nt "Text" = true ∨
                strIncludes nt "String" = true then
          (match node.widgets_values with
           | some (w :: _) =>
             (match w with
              | jstr s =>
                if isPlainPromptString (jstr s) ∧ jsTrim s ≠ "" then ([jsTrim s], visited1)
                else ([], visited1)
              | _ => ([], visited1))
           | _ => ([], visited1))
        else
          let stage : List String × List Int :=
            match node.inputs with
            | some inps =>
              inps.foldl (fun (acc : List String × List Int) inp =>
                if ["text", "prompt", "positive", "negative", "conditioning",
                    "cond"].contains inp.name then
                  match inp.link with
                  | some l =>
                    (match (findSourcePromptNode nodes (some l) []).1 with
                     | some upstream =>
                       let r := collectGoL nodes fuel upstream acc.2
                       (acc.1 ++ r.1, r.2)
                     | none => acc)
                  | none => acc
                else acc) (([] : List String), visited1)
            | none => ([], visited1)
          if stage.1.isEmpty then
            (match node.widgets_values with
             | some (w :: _) =>
               (match w with
                | jstr s =>
                  if isPlainPromptString (jstr s) ∧ jsTrim s ≠ "" then
                    ([jsTrim s], stage.2)
                  else stage
                | _ => stage)
             | _ => stage)
          else stage

/-- `collectAllPromptsFromGraph(nodes, node, visited)`. -/
def collectAllPromptsFromGraph (nodes : List LNode) (node : LNode)
    (visited : List Int) : List String × List Int :=
  collectGoL nodes (nodes.length + 2) node visited

/-- `[...new Set(arr)]`: deduplicate keeping first occurrences. -/
def dedupKeepFirstAll (seen : List String) : List String → List String
  | [] => []
  | t :: r =>
    if seen.contains t = true then dedupKeepFirstAll seen r
    else t :: dedupKeepFirstAll (t :: seen) r

/-- The sampler anchor types of `extractPromptsFromGraph` (line 183). -/
def samplerTypesG : List String :=
  ["KSampler", "UltimateSDUpscale", "KSamplerAdvanced", "SamplerCustom",
   "FaceDetailerPipe", "SamplerCustomAdvanced"]

/-- One polarity of `extractPromptsFromGraph` (lines 184-216): anchor
lookup, link trace, collection, filter, dedup, join. -/
def tracedPrompt (nodes : List LNode) (polarity : String) : Option String :=
  match nodes.find? (fun n => samplerTypesG.contains n.ntype) with
  | none => none
  | some sampler =>
    match sampler.inputs with
    | none => none
    | some sinputs =>
      match sinputs.find? (fun inp => inp.name = polarity) with
      | none => none
      | some inp =>
        match inp.link with
        | none => none
        | some l =>
          match (findSourcePromptNode nodes (some l) []).1 with
          | none => none
          | some srcNode =>
            let allTexts := (collectAllPromptsFromGraph nodes srcNode []).1
            let uniq := dedupKeepFirstAll [] (allTexts.filter (fun t => jsTrim t ≠ ""))
            if uniq.isEmpty then none else some (jsJoin ", " uniq)

/-- `extractPromptsFromGraph` (lines 182-231), parametrised by the prompt
polarity classifiers `isPositivePrompt`/`isNegativePrompt`, which live in
`validator.ts` (not among the sources). -/
def extractPromptsFromGraph (isPos isNeg : String → Bool) (nodes : List LNode) :
    Option String × Option String :=
  let positive := tracedPrompt nodes "positive"
  let negative := tracedPrompt nodes "negative"
  match positive, negative with
  | some p, some n =>
    if p ≠ "" ∧ n ≠ "" ∧ p = n then
      (if isNeg n = true ∧ isPos p = false then (none, some n)
       else if isPos p = true ∧ isNeg n = false then (some p, none)
       else (some p, none))
    else (positive, negative)
  | _, _ => (positive, negative)

/-- C8: on the layout-graph path, whenever the positive and the negative
trace yield the same non-empty string, the dedup block clears exactly one
field: positive is cleared when the polarity classifier judges the string
negative and not positive, negative is cleared when it judges it positive
and not negative, and negative is cleared when the judgment is ambiguous
(both or neither). -/
theorem same_string_dedup (isPos isNeg : String → Bool) (nodes : List LNode) (s : String)
    (hpos : tracedPrompt nodes "positive" = some s)
    (hneg : tracedPrompt nodes "negative" = some s)
    (hne : s ≠ "") :
    (isNeg s = true → isPos s = false →
      extractPromptsFromGraph isPos isNeg nodes = (none, some s)) ∧
    (isPos s = true → isNeg s = false →
      extractPromptsFromGraph isPos isNeg nodes = (some s, none)) ∧
    (isPos s = isNeg s →
      extractPromptsFromGraph isPos isNeg nodes = (some s, none)) := by
  refine ⟨?_, ?_, ?_⟩
  · intro hn hp
    simp [extractPromptsFromGraph, hpos, hneg, hne, hn, hp]
  · intro hp hn
    simp [extractPromptsFromGraph, hpos, hneg, hne, hn, hp]
  · intro hEq
    cases h3 : isPos s with
    | false =>
      rw [h3] at hEq
      simp [extractPromptsFromGraph, hpos, hneg, hne, h3, hEq.symm]
    | true =>
      rw [h3] at hEq
      simp [extractPromptsFromGraph, hpos, hneg, hne, h3, hEq.symm]

/-- Witness layout graph: a `KSampler` whose positive and negative inputs
both link to the single `CLIPTextEncode` text node. -/
def dedupWitNodes : List LNode :=
  [ { id := 1, ntype := "CLIPTextEncode",
      outputs := some [{ links := some [1, 2] }],
      widgets_values := some [jstr "dup"] },
    { id := 2, ntype := "KSampler",
      inputs := some [{ name := "positive", link := some 1 },
                      { name := "negative", link := some 2 }] } ]

/-- A classifier judging nothing positive. -/
def isPosW : String → Bool := fun _ => false

/-- A classifier judging exactly "dup" negative. -/
def isNegW : String → Bool := fun t => t = "dup"

/-- Witness for `same_string_dedup` on `dedupWitNodes`: both traces give
"dup", judged negative-only, so the positive field is cleared. -/
theorem same_string_dedup_witness :
    extractPromptsFromGraph isPosW isNegW dedupWitNodes = (none, some "dup") :=
  (same_string_dedup isPosW isNegW dedupWitNodes "dup" (by decide) (by decide)
    (by decide)).1 (by decide) (by decide)

/-! ### Termination of the depth-guarded recursions (C3)

`resolveTextFromRefDirect` and `collectAllTextsFromConditioningRefDirect`
transcribe the source recursions literally: `depth` counts up, the guard
is `depth > 50`, and every recursive call passes `depth + 1` (the
CLIPTextEncode branch of the collector restarts resolution at depth 0
with a fresh visited set, exactly as the source does).  Lean accepts them
as total functions with the decreasing measure `51 - depth`, which is the
termination argument itself: on every graph, cyclic or not, both return
after a bounded number of steps.  The equivalence lemmas identify them
with the fuel-indexed cores used throughout this development. -/

def resolveTextFromRefDirect (g : Graph) (ref : JVal) (visited : List String)
    (depth : Nat) : String :=
  if _h : depth > 50 then ""
  else
    match ref with
    | jstr s => if isPlainPromptString (jstr s) then jsTrim s else ""
    | jobj fields =>
      (match alookup fields "content" with
       | some c =>
         if truthy c then
           (match c with
            | jstr cs => if isPlainPromptString (jstr cs) then jsTrim cs else ""
            | _ => "")
         else ""
       | none => "")
    | jarr (jstr nodeId :: _) =>
      if visited.contains nodeId then ""
      else
        let visited' := nodeId :: visited
        match glookup g nodeId with
        | none => ""
        | some node =>
          let ct := node.class_type
          let inputs := node.inputs
          let showTextHit : Option String :=
            if SHOW_TEXT_TYPES.contains ct then
              ["text_0", "text_1", "text_2", "value", "text"].findSome? (fun key =>
                match alookup inputs key with
                | some (jstr s) => if s ≠ "" ∧ jsTrim s ≠ "" then some (jsTrim s) else none
                | _ => none)
            else none
          match showTextHit with
          | some r => r
          | none =>
            if ct = "ImpactWildcardProcessor" then
              let pop : Option String :=
                match alookup inputs "populated_text" with
                | some (jstr p) => if p ≠ "" ∧ jsTrim p ≠ "" then some (jsTrim p) else none
                | _ => none
              match pop with
              | some r => r
              | none =>
                match alookup inputs "wildcard_text" with
                | some (jstr w) => if w ≠ "" ∧ jsTrim w ≠ "" then jsTrim w else ""
                | _ => ""
            else if TEXT_CONCAT_TYPES.contains ct then
              let separator :=
                match alookup inputs "separator" with
                | some (jstr s) => s
                | _ => " "
              let textKeys := sortTextKeys ((inputs.map Prod.fst).filter isTextKey)
              let parts := (textKeys.map (fun key =>
                resolveTextFromRefDirect g ((alookup inputs key).getD jnull) visited'
                  (depth + 1))).filter (fun r => r ≠ "")
              jsJoin separator parts
            else
              let crHit : Option String :=
                if ct = "CR Text" ∨ ct = "CR Prompt Text" ∨ ct = "Text" ∨ ct = "String" then
                  match alookup inputs "text" with
                  | some (jstr s) =>
                    if s ≠ "" then some (jsTrim s)
                    else
                      (match alookup inputs "value" with
                       | some (jstr s') => if s' ≠ "" then some (jsTrim s') else none
                       | _ => none)
                  | _ =>
                    (match alookup inputs "value" with
                     | some (jstr s') => if s' ≠ "" then some (jsTrim s') else none
                     | _ => none)
                else none
              match crHit with
              | some r => r
              | none =>
                let clipHit : Option String :=
                  if ct = "CLIPTextEncode" then
                    match alookup inputs "text" with
                    | some tv =>
                      if truthy tv then
                        some (resolveTextFromRefDirect g tv visited' (depth + 1))
                      else none
                    | none => none
                  else none
                match clipHit with
                | some r => r
                | none =>
                  let genHit : Option String :=
                    if TEXT_NODE_TYPES.contains ct ∨ strIncludes ct "Text" = true ∨
                       strIncludes ct "String" = true ∨ strIncludes ct "Prompt" = true then
                      ["text", "prompt", "string", "value", "text_output", "output",
                       "result"].findSome? (fun key =>
                        match alookup inputs key with
                        | some v =>
                          if truthy v then
                            (let resolved := resolveTextFromRefDirect g v visited' (depth + 1)
                             if resolved ≠ "" then some resolved else none)
                          else none
                        | none => none)
                    else none
                  match genHit with
                  | some r => r
                  | none =>
                    ((inputs.findSome? (lastResortStep visited'
                        (fun v => resolveTextFromRefDirect g v visited' (depth + 1)))).getD "")
    | _ => ""
termination_by 51 - depth
decreasing_by all_goals omega

/-- The depth-counting resolver agrees with the fuel-indexed core whenever
`fuel = 51 - depth`. -/
theorem resolveDirect_eq (g : Graph) :
    ∀ fuel depth, fuel = 51 - depth → ∀ ref visited,
      resolveTextFromRefDirect g ref visited depth = resolveGo g fuel ref visited := by
  intro fuel
  induction fuel with
  | zero =>
    intro depth hd ref visited
    rw [resolveTextFromRefDirect.eq_def]
    rw [dif_pos (by omega : depth > 50)]
    rfl
  | succ fuel ih =>
    intro depth hd ref visited
    have hrec : ∀ r v, resolveTextFromRefDirect g r v (depth + 1) = resolveGo g fuel r v :=
      fun r v => ih (depth + 1) (by omega) r v
    rw [resolveTextFromRefDirect.eq_def]
    rw [dif_neg (by omega : ¬ depth > 50)]
    simp only [hrec]
    rfl

/-- Literal transcription of `collectAllTextsFromConditioningRef`
(lines 183-268) with the source's upward depth counting. -/
def collectAllTextsFromConditioningRefDirect (g : Graph) (ref : JVal) (depth : Nat)
    (st : TraceSt) : TraceSt :=
  if _h : depth > 50 then st
  else
    match ref with
    | jarr (jstr nodeId :: _) =>
      if st.visited.contains nodeId then st
      else
        let st1 : TraceSt := ⟨nodeId :: st.visited, st.texts⟩
        match glookup g nodeId with
        | none => st1
        | some node =>
          let ct := node.class_type
          let inputs := node.inputs
          if ct = "ConditioningConcat" ∨ ct = "ConditioningCombine" then
            let st2 :=
              match alookup inputs "conditioning_to" with
              | some v =>
                if truthy v then collectAllTextsFromConditioningRefDirect g v (depth + 1) st1
                else st1
              | none => st1
            let st3 :=
              match alookup inputs "conditioning_from" with
              | some v =>
                if truthy v then collectAllTextsFromConditioningRefDirect g v (depth + 1) st2
                else st2
              | none => st2
            inputs.foldl (fun acc kv =>
              if (strStartsWith kv.1 "cond" = true ∨ strStartsWith kv.1 "conditioning" = true) ∧
                 kv.1 ≠ "conditioning_to" ∧ kv.1 ≠ "conditioning_from" then
                collectAllTextsFromConditioningRefDirect g kv.2 (depth + 1) acc
              else acc) st3
          else if ct = "CLIPTextEncode" then
            let text := resolveTextFromRefDirect g ((alookup inputs "text").getD jnull) [] 0
            if text ≠ "" ∧ jsTrim text ≠ "" ∧ st1.texts.contains (jsTrim text) = false then
              ⟨st1.visited, st1.texts ++ [jsTrim text]⟩
            else st1
          else if ct = "CFGGuider" ∨ ct = "BasicGuider" ∨ ct = "DualCFGGuider" then
            match alookup inputs "positive" with
            | some v =>
              if truthy v then collectAllTextsFromConditioningRefDirect g v (depth + 1) st1
              else st1
            | none => st1
          else
            let st2 := CONDITIONING_INPUT_KEYS.foldl (fun acc key =>
              match alookup inputs key with
              | some (jarr xs) => collectAllTextsFromConditioningRefDirect g (jarr xs) (depth + 1) acc
              | _ => acc) st1
            inputs.foldl (fun acc kv =>
              match kv.2 with
              | jarr (jstr tid :: trest) =>
                if acc.visited.contains tid = false then
                  match glookup g tid with
                  | some refNode =>
                    let refClass := refNode.class_type
                    if strIncludes refClass "Conditioning" = true ∨
                       strIncludes refClass "CLIP" = true ∨
                       refClass = "ConditioningConcat" ∨ refClass = "ConditioningCombine" ∨
                       refClass = "CLIPTextEncode" then
                      collectAllTextsFromConditioningRefDirect g (jarr (jstr tid :: trest))
                        (depth + 1) acc
                    else acc
                  | none => acc
                else acc
              | _ => acc) st2
    | _ => st
termination_by 51 - depth
decreasing_by all_goals omega

/-- The depth-counting collector agrees with the fuel-indexed core
whenever `fuel = 51 - depth`. -/
theorem collectDirect_eq (g : Graph) :
    ∀ fuel depth, fuel = 51 - depth → ∀ ref st,
      collectAllTextsFromConditioningRefDirect g ref depth st = collectGo g fuel ref st := by
  intro fuel
  induction fuel with
  | zero =>
    intro depth hd ref st
    rw [collectAllTextsFromConditioningRefDirect.eq_def]
    rw [dif_pos (by omega : depth > 50)]
    rfl
  | succ fuel ih =>
    intro depth hd ref st
    have hrec : ∀ r s, collectAllTextsFromConditioningRefDirect g r (depth + 1) s =
        collectGo g fuel r s :=
      fun r s => ih (depth + 1) (by omega) r s
    have hres : ∀ v, resolveTextFromRefDirect g v [] 0 = resolveGo g 51 v [] :=
      fun v => resolveDirect_eq g 51 0 rfl v []
    rw [collectAllTextsFromConditioningRefDirect.eq_def]
    rw [dif_neg (by omega : ¬ depth > 50)]
    simp only [hrec, hres]
    rfl

/-- C3: for every execution-record graph, including self-referential nodes,
reference cycles and arbitrarily deep chains, the source's depth-guarded
recursions terminate and return a value: their literal transcriptions
`resolveTextFromRefDirect` and `collectAllTextsFromConditioningRefDirect`
are total functions (accepted with decreasing measure `51 - depth`, i.e.
the depth bound 50 plus the visited-set cycle guard make every call
finite), and on all arguments they compute exactly `resolveTextFromRef`
and `collectAllTextsFromConditioningRef`, which always yield a string
resp. a state — no error outcome exists. -/
theorem resolution_terminates (g : Graph) (ref : JVal) (visited : List String)
    (depth : Nat) (st : TraceSt) :
    resolveTextFromRefDirect g ref visited depth = resolveTextFromRef g ref visited depth ∧
    collectAllTextsFromConditioningRefDirect g ref depth st =
      collectAllTextsFromConditioningRef g ref depth st :=
  ⟨resolveDirect_eq g (51 - depth) depth rfl ref visited,
   collectDirect_eq g (51 - depth) depth rfl ref st⟩
